import Mathlib

/-!
Verification of the optimistic-cache and reconciliation engine of the
stack-ai file-picker frontend.  The definitions below are a shallow
embedding of the TypeScript hooks: JavaScript strings are modelled as
Lean strings whose character list plays the role of the UTF-16 code-unit
sequence, `Map` objects and react-query caches are modelled as
association lists with insert-or-overwrite semantics, and the JS `||`
fallback on nullable strings is modelled explicitly.
-/

set_option maxHeartbeats 1000000
set_option maxRecDepth 40000

/-- Resource kind, from the `FileItem` type: "file" or "directory". -/
inductive FileType where
  | file
  | directory
deriving DecidableEq, Repr

/-- Indexing status strings that appear in the code: the four enum values
plus the "unknown" placeholder the hooks substitute for a missing status. -/
inductive RStatus where
  | pending
  | indexed
  | pending_delete
  | rerror
  | unknown
deriving DecidableEq, Repr

/-- A drive/KB resource as it sits in the caches (`FileItem`).  `status`
is optional, exactly as in the TypeScript type. -/
structure FileItem where
  id : String
  name : String
  type : FileType
  size : Nat
  status : Option RStatus
deriving DecidableEq, Repr

/-- Association-list lookup, modelling `Map.get` / keyed cache reads. -/
def mlookup {α : Type} [DecidableEq α] {β : Type} : List (α × β) → α → Option β
  | [], _ => none
  | (k, v) :: rest, key => if key = k then some v else mlookup rest key

/-- Association-list insert-or-overwrite, modelling `Map.set` /
`queryClient.setQueryData`: the first occurrence of the key is updated in
place, otherwise the pair is appended. -/
def mset {α : Type} [DecidableEq α] {β : Type} : List (α × β) → α → β → List (α × β)
  | [], k, v => [(k, v)]
  | (k', v') :: rest, k, v => if k = k' then (k', v) :: rest else (k', v') :: mset rest k v

/-- JS `a || b` on nullable strings: the empty string is falsy. -/
def jsOr (a b : Option String) : Option String :=
  match a with
  | none => b
  | some s => if s = "" then b else some s

/-- JS `s.startsWith(p)` on code-unit sequences. -/
def jsStartsWith (s p : String) : Bool :=
  p.data.isPrefixOf s.data

/-- JS `s.substring(n)` (drop the first `n` code units). -/
def jsSubstringFrom (s : String) (n : Nat) : String :=
  ⟨s.data.drop n⟩

/-- JS `s.includes("/")`: the one-character search used by the dedup code. -/
def jsIncludesSlash (s : String) : Bool :=
  s.data.contains '/'

/-- JS `s.length` (code-unit count). -/
def jsLength (s : String) : Nat :=
  s.data.length

/-! ## Optimistic delete registry, status caches and the status resolver
(`useDataManager`, src/unnamed/part_007). -/

/-- An entry of the Optimistic Delete Registry. -/
structure OptimisticDeleteEntry where
  fileId : String
  fileName : String
  kbId : String
  timestamp : Nat
  locked : Bool
deriving DecidableEq, Repr

/-- The state read by `resolveFileStatus`: the registry record, the root
KB-resources cache (keyed by KB id) and the folder status cache (keyed by
KB id and folder path).  Cache values are the `data` arrays. -/
structure DataState where
  registry : List (String × OptimisticDeleteEntry)
  rootCache : List (String × List FileItem)
  folderCache : List ((String × String) × List FileItem)
deriving Repr

/-- Result type of `resolveFileStatus`: the "-" sentinel, a status coming
from a cache hit (possibly `undefined`), or the `null` default. -/
inductive Resolved where
  | dash
  | found (s : Option RStatus)
  | nullR
deriving DecidableEq, Repr

/-- Step 2 of `resolveFileStatus`: look the file up in the root
KB-resources cache and apply the `pending → indexed` display mapping. -/
def rootCacheStep (st : DataState) (fileId : String) (kbId : Option String) :
    Option (Option RStatus) :=
  match kbId with
  | none => none
  | some k =>
    if k = "" then none
    else
      match mlookup st.rootCache k with
      | none => none
      | some files =>
        match files.find? (fun r => r.id == fileId) with
        | none => none
        | some r => some (if r.status = some .pending then some .indexed else r.status)

/-- Step 3 of `resolveFileStatus`: look the file up in the folder status
cache for `(kbId, folderPath)` and apply the same display mapping. -/
def folderCacheStep (st : DataState) (fileId : String) (kbId : Option String)
    (folderPath : Option String) : Option (Option RStatus) :=
  match kbId, folderPath with
  | some k, some fp =>
    if k = "" ∨ fp = "" then none
    else
      match mlookup st.folderCache (k, fp) with
      | none => none
      | some files =>
        match files.find? (fun r => r.id == fileId) with
        | none => none
        | some r => some (if r.status = some .pending then some .indexed else r.status)
  | _, _ => none

/-- `resolveFileStatus` from `useDataManager`: registry override first,
then the root cache, then the folder cache, else `null`. -/
def resolveFileStatus (st : DataState) (fileId : String) (kbId : Option String)
    (folderPath : Option String) : Resolved :=
  if (mlookup st.registry fileId).isSome then .dash
  else
    match rootCacheStep st fileId kbId with
    | some v => .found v
    | none =>
      match folderCacheStep st fileId kbId folderPath with
      | some v => .found v
      | none => .nullR

/-! ## FileStatusCell (src/unnamed/part_002). -/

/-- The five renderings of the status cell. -/
inductive Cell where
  | dash
  | cellIndexed
  | cellIndexing
  | cellDeleting
  | cellFailed
deriving DecidableEq, Repr

/-- `FileStatusCell`: directories always render a dash; files render by
status, with `pending` rendering as the "Indexing..." badge. -/
def fileStatusCell (ftype : FileType) (status : Option RStatus) (fileId : String)
    (isFileDeleting : String → Bool) : Cell :=
  if ftype = .directory then .dash
  else if status = some .indexed then .cellIndexed
  else if status = some .pending then .cellIndexing
  else if status = some .pending_delete ∨ isFileDeleting fileId then .cellDeleting
  else if status = some .rerror then .cellFailed
  else .dash

/-! ## KB status poller (`useKnowledgeBaseStatus`). -/

/-- Fixed poll interval (ms). -/
def POLL_INTERVAL : Nat := 1000

/-- Hard ceiling on total root polling duration (ms). -/
def MAX_POLL_DURATION : Nat := 2 * 60 * 1000

/-- The status map built from the root KB listing: missing statuses become
"unknown" and `pending` is rewritten to `indexed` before storing. -/
def buildStatusMap (resources : List FileItem) : List (String × RStatus) :=
  resources.foldl
    (fun m r =>
      let d := r.status.getD .unknown
      mset m r.id (if d = .pending then .indexed else d))
    []

/-- `allFilesSettled`: every file-type resource is `indexed` or `error`;
no data counts as unsettled, an empty file list as settled. -/
def allFilesSettled (data : Option (List FileItem)) : Bool :=
  match data with
  | none => false
  | some res => (res.filter (fun i => i.type == .file)).all
      (fun f => f.status == some .indexed || f.status == some .rerror)

/-- One evaluation of the root polling effect: given elapsed time and the
latest root listing it returns the new `shouldPoll` flag (the flag is
`true` on entry).  Branch order follows the effect body: no data keeps
polling; then the timeout check; then empty data, no files, and the
unsettled check. -/
def rootPollStep (elapsed : Nat) (data : Option (List FileItem)) : Bool :=
  match data with
  | none => true
  | some resources =>
    if MAX_POLL_DURATION < elapsed then false
    else if resources = [] then false
    else
      let files := resources.filter (fun i => i.type == .file)
      if files = [] then false
      else
        let pendingFiles := files.filter (fun f => f.status == some .pending)
        let pendingDeleteFiles := files.filter (fun f => f.status == some .pending_delete)
        if pendingFiles = [] ∧ pendingDeleteFiles = [] then false
        else true

/-! ## Folder status polling (`pollFolderStatus` in `useFileTree`). -/

/-- The status values of a folder listing as collected into the map
passed to `pollFolderStatus` (`resource.status || "unknown"`). -/
def folderStatusValues (resources : List FileItem) : List RStatus :=
  resources.map (fun r => r.status.getD .unknown)

/-- One folder-poll decision: reschedule iff any value is `pending` or
`pending_delete`.  There is no elapsed-time input: the function has no
duration ceiling. -/
def pollFolderStep (resources : List FileItem) : Bool :=
  let statusValues := folderStatusValues resources
  let pendingFiles := statusValues.filter (fun s => s == .pending)
  let pendingDeleteFiles := statusValues.filter (fun s => s == .pending_delete)
  decide (pendingFiles ≠ []) || decide (pendingDeleteFiles ≠ [])

/-- Whether the folder-poll chain is still scheduling after `n` rounds,
when round `m` observes the listing `results m`.  Round 0 is the initial
poll; each later round is scheduled only if its predecessor observed a
transiently-pending listing. -/
def folderPollActive (results : Nat → List FileItem) : Nat → Bool
  | 0 => true
  | n + 1 => folderPollActive results n && pollFolderStep (results n)

/-! ## Tree building and flattening (`useFileTree`). -/

/-- A node of the built tree: the source `FileItem` plus the fields
`buildFileTree` attaches (`isExpanded`, `isLoading`, `level`, the final
status, and the children list). -/
inductive TreeNode where
  | mk (item : FileItem) (isExpanded : Bool) (isLoading : Bool) (level : Nat)
      (status : Option RStatus) (children : List TreeNode)

/-- The `FileItem` carried by a tree node. -/
def TreeNode.item : TreeNode → FileItem
  | .mk i _ _ _ _ _ => i

/-- The final display status attached by `buildFileTree`. -/
def TreeNode.status : TreeNode → Option RStatus
  | .mk _ _ _ _ s _ => s

/-- The nesting level attached by `buildFileTree`. -/
def TreeNode.level : TreeNode → Nat
  | .mk _ _ _ l _ _ => l

/-- The children attached by `buildFileTree`. -/
def TreeNode.children : TreeNode → List TreeNode
  | .mk _ _ _ _ _ c => c

/-- `buildFileTree`: expanded, non-loading directories pull their children
from the drive-files cache and recurse one level deeper.  Root rows
(level 0) take their status from the `statusMap` with no fallback to the
cached status; nested rows take the cached `file.status` unchanged.  The
`fuel` bound only caps the recursion depth through the cache. -/
def buildFileTree (expanded loading : List String)
    (driveCache : List (String × List FileItem)) (statusMap : List (String × RStatus)) :
    Nat → List FileItem → Nat → String → List TreeNode
  | 0, _, _, _ => []
  | fuel + 1, files, level, parentPath =>
    files.map fun file =>
      let isExpanded := expanded.contains file.id
      let isLoading := loading.contains file.id
      let children :=
        if file.type = .directory ∧ isExpanded ∧ ¬ isLoading then
          match mlookup driveCache file.id with
          | some folderData =>
            let seg := (file.name.splitOn "/").getLastD ""
            let currentPath := if parentPath = "" then seg else parentPath ++ "/" ++ seg
            buildFileTree expanded loading driveCache statusMap fuel folderData (level + 1)
              currentPath
          | none => []
        else []
      let finalStatus :=
        if level = 0 then mlookup statusMap file.id
        else file.status
      .mk file isExpanded isLoading level finalStatus children

mutual

/-- `flattenTree`'s traversal of one node: the node, then its subtree. -/
def flattenNode : TreeNode → List TreeNode
  | .mk i e l lv s cs => .mk i e l lv s cs :: flattenForest cs

/-- `flattenTree`: depth-first flattening of the built tree. -/
def flattenForest : List TreeNode → List TreeNode
  | [] => []
  | t :: ts => flattenNode t ++ flattenForest ts

end

/-- The status cell rendered for one flattened tree row. -/
def nodeCell (isFileDeleting : String → Bool) (t : TreeNode) : Cell :=
  fileStatusCell t.item.type t.status t.item.id isFileDeleting

/-! ## Selection deduplication (`resourceDeduplication.ts`). -/

/-- The `fileMap` built by `deduplicateResourceIds` (`Map` of id to
file, last write wins). -/
def fileMapOf (files : List FileItem) : List (String × FileItem) :=
  files.foldl (fun m f => mset m f.id f) []

/-- The `selectedFolders` of `deduplicateResourceIds`: the selected ids
resolved through the file map, keeping the directories. -/
def selectedFoldersOf (selectedIds : List String) (files : List FileItem) :
    List FileItem :=
  ((selectedIds.map (fun i => mlookup (fileMapOf files) i)).filterMap id).filter
    (fun f => f.type == .directory)

/-- The direct-child test of `deduplicateResourceIds`: the file path
starts with the folder path plus a slash, and the remaining path has no
further slash. -/
def directChildCheck (folderPath filePath : String) : Bool :=
  if ¬ jsStartsWith filePath (folderPath ++ "/") then false
  else
    let remainingPath := jsSubstringFrom filePath (jsLength folderPath + 1)
    ¬ jsIncludesSlash remainingPath

/-- `deduplicateResourceIds`: with more than one selected id, drop every
selected file whose direct parent folder is also selected; keep all
folders and unknown ids. -/
def deduplicateResourceIds (selectedIds : List String) (files : List FileItem) :
    List String :=
  if selectedIds.length ≤ 1 then selectedIds
  else if selectedFoldersOf selectedIds files = [] then selectedIds
  else
    selectedIds.filter fun i =>
      match mlookup (fileMapOf files) i with
      | none => true
      | some file =>
        if file.type = .directory then true
        else
          ¬ (selectedFoldersOf selectedIds files).any fun folder =>
              directChildCheck folder.name file.name

/-! ## Delete queue (`useDataManager` / `useDeleteQueue`). -/

/-- A queued delete request. -/
structure DeleteRequest where
  id : String
  fileId : String
  fileName : String
  resourcePath : String
  kbId : String
  timestamp : Nat
deriving DecidableEq, Repr

/-- `queueDeleteRequest` builds the request record: derived id, root-level
resource path `/name`, and the enqueue timestamp. -/
def mkDeleteRequest (fileId fileName kbId : String) (now : Nat) : DeleteRequest :=
  { id := "delete-" ++ fileId ++ "-" ++ toString now
    fileId := fileId
    fileName := fileName
    resourcePath := "/" ++ fileName
    kbId := kbId
    timestamp := now }

/-- `queueDeleteRequest` appends the new request to the queue. -/
def queueDeleteRequest (queue : List DeleteRequest) (fileId fileName kbId : String)
    (now : Nat) : List DeleteRequest :=
  queue ++ [mkDeleteRequest fileId fileName kbId now]

/-- `removeFromQueue`: drop the request with the given id. -/
def removeFromQueue (queue : List DeleteRequest) (requestId : String) :
    List DeleteRequest :=
  queue.filter (fun req => req.id != requestId)

/-- `updateQueueKBId`: rewrite the kbId of every queued request that still
carries the old KB id. -/
def updateQueueKBId (queue : List DeleteRequest) (oldKbId newKbId : String) :
    List DeleteRequest :=
  queue.map fun request =>
    if request.kbId = oldKbId then { request with kbId := newKbId } else request

/-- User-visible notifications emitted while draining. -/
inductive Toast where
  | itemError (fileId : String)
  | successSummary (succ failed : Nat)
  | processedSummary
deriving DecidableEq, Repr

/-- Observable outcome of a drain: the final queue store, the delete API
calls issued (kbId and resource path, in order), and the toasts shown. -/
structure DrainResult where
  finalQueue : List DeleteRequest
  calls : List (String × String)
  toasts : List Toast
deriving DecidableEq, Repr

/-- Intermediate state of the `useDeleteQueue` drain loop. -/
structure DQLoopOut where
  store : List DeleteRequest
  calls : List (String × String)
  toasts : List Toast
  succ : Nat
  failed : Nat
deriving Repr

namespace UseDeleteQueue

/-- The `for` loop of `useDeleteQueue.processQueue`: iterate the snapshot;
skip requests for a different KB; otherwise issue the delete call
(`executeDeleteRequest`, which toasts per item on failure); dequeue from
the live store only on success. -/
def drainLoop (k : String) (api : DeleteRequest → Bool) :
    List DeleteRequest → List DeleteRequest → DQLoopOut
  | [], store => ⟨store, [], [], 0, 0⟩
  | request :: rest, store =>
    if request.kbId ≠ k then drainLoop k api rest store
    else if api request then
      let out := drainLoop k api rest (removeFromQueue store request.id)
      ⟨out.store, (request.kbId, request.resourcePath) :: out.calls, out.toasts,
        out.succ + 1, out.failed⟩
    else
      let out := drainLoop k api rest store
      ⟨out.store, (request.kbId, request.resourcePath) :: out.calls,
        .itemError request.fileId :: out.toasts, out.succ, out.failed + 1⟩

/-- `useDeleteQueue.processQueue`: no-op unless a truthy KB id is given,
the processing flag is clear and the queue is non-empty; then run the
loop over a snapshot of the queue and show a summary toast when at least
one delete succeeded. -/
def processQueue (currentKbId : Option String) (processing : Bool)
    (queue : List DeleteRequest) (api : DeleteRequest → Bool) : DrainResult :=
  match currentKbId with
  | none => ⟨queue, [], []⟩
  | some k =>
    if k = "" ∨ processing ∨ queue.isEmpty then ⟨queue, [], []⟩
    else
      let out := drainLoop k api queue queue
      ⟨out.store, out.calls,
        out.toasts ++ (if 0 < out.succ then [.successSummary out.succ out.failed] else [])⟩

end UseDeleteQueue

namespace DataManagerOps

/-- The `for` loop of the `useKnowledgeBaseOperations` drain: every
request in the snapshot is processed against its own `request.kbId` and
removed from the live store whether the call succeeds or fails; failures
are only logged, no per-item toast. -/
def drainLoop (api : DeleteRequest → Bool) :
    List DeleteRequest → List DeleteRequest → DQLoopOut
  | [], store => ⟨store, [], [], 0, 0⟩
  | request :: rest, store =>
    let store' := removeFromQueue store request.id
    let out := drainLoop api rest store'
    if api request then
      ⟨out.store, (request.kbId, request.resourcePath) :: out.calls, out.toasts,
        out.succ + 1, out.failed⟩
    else
      ⟨out.store, (request.kbId, request.resourcePath) :: out.calls, out.toasts,
        out.succ, out.failed + 1⟩

/-- `processQueue` from `useKnowledgeBaseOperations` (data-manager
version): no-op unless a current KB id exists, the processing flag is
clear and the queue has items; then drain the snapshot, dequeueing every
request, and finish with the blanket success toast. -/
def processQueue (currentKbId : Option String) (processing : Bool)
    (queue : List DeleteRequest) (api : DeleteRequest → Bool) : DrainResult :=
  match currentKbId with
  | none => ⟨queue, [], []⟩
  | some k =>
    if k = "" ∨ processing ∨ queue.isEmpty then ⟨queue, [], []⟩
    else
      let out := drainLoop api queue queue
      ⟨out.store, out.calls, out.toasts ++ [.processedSummary]⟩

end DataManagerOps

/-! ## Sync state (`useSyncState` / `useDataManager`). -/

/-- The tri-state sync machine. -/
inductive SyncState where
  | idle
  | pending
  | synced
deriving DecidableEq, Repr

/-- The sync-state record. -/
structure SyncStateData where
  state : SyncState
  kbId : Option String
  lastUpdated : Nat
deriving DecidableEq, Repr

/-- `updateSyncState` from `useDataManager`: the new kbId is the argument
when truthy, otherwise the previously stored kbId (`kbId ||
currentData.kbId`). -/
def updateSyncState (cur : SyncStateData) (newState : SyncState)
    (kbId : Option String) (now : Nat) : SyncStateData :=
  { state := newState, kbId := jsOr kbId cur.kbId, lastUpdated := now }

/-- `setSyncState` from `useSyncState`: identical update logic. -/
def setSyncState (cur : SyncStateData) (newState : SyncState)
    (kbId : Option String) (now : Nat) : SyncStateData :=
  { state := newState, kbId := jsOr kbId cur.kbId, lastUpdated := now }

/-- `resetSyncState` (data-manager version): update to `idle` with a
`null` kbId argument. -/
def resetSyncState (cur : SyncStateData) (now : Nat) : SyncStateData :=
  updateSyncState cur .idle none now

/-! ## KB lifecycle orchestrator (`useKnowledgeBaseOperations`). -/

/-- A knowledge-base record. -/
structure KnowledgeBase where
  id : String
  name : String
  created_at : String
  is_empty : Bool
deriving DecidableEq, Repr

/-- One folder captured by `findAllFilesInSelectedFolders`. -/
structure FolderSeed where
  folderId : String
  folderPath : String
  fileIds : List String
deriving DecidableEq, Repr

/-- The mutation context returned by `createKBMutation.onMutate`. -/
structure CreateContext where
  optimisticKB : KnowledgeBase
  resourceIds : List String
  previousKB : Option KnowledgeBase
  folderFiles : List FolderSeed
deriving Repr

/-- The stores touched by the create mutation's success and error
handlers. -/
structure OrchestratorState where
  syncState : SyncStateData
  currentKB : Option KnowledgeBase
  rootCache : List (String × List FileItem)
  folderCache : List ((String × String) × List FileItem)
  queue : List DeleteRequest
deriving Repr

/-- `createKBMutation.onError`: reset the sync state, restore the
previous KB (or none), and remove the optimistic root cache entry and
every folder status cache entry keyed by the temporary KB id.  The
delete queue is not touched. -/
def createKBOnError (st : OrchestratorState) (ctx : CreateContext) (now : Nat) :
    OrchestratorState :=
  { st with
    syncState := resetSyncState st.syncState now
    currentKB := ctx.previousKB
    rootCache := st.rootCache.filter (fun kv => kv.1 != ctx.optimisticKB.id)
    folderCache := st.folderCache.filter (fun kv => kv.1.1 != ctx.optimisticKB.id) }

/-- The folder-cache transfer loop of `createKBMutation.onSuccess`: for
each folder captured at mutate time, copy the temp-keyed entry (when
present) to the real KB id. -/
def transferFolderCaches (tempId realId : String) :
    List FolderSeed → List ((String × String) × List FileItem) →
    List ((String × String) × List FileItem)
  | [], fc => fc
  | f :: rest, fc =>
    let fc' :=
      match mlookup fc (tempId, f.folderPath) with
      | some d => mset fc (realId, f.folderPath) d
      | none => fc
    transferFolderCaches tempId realId rest fc'

/-- `createKBMutation.onSuccess`: mark the sync state synced under the
real id, rekey the queue, replace the current KB, copy the temp-keyed
root cache entry and the temp-keyed folder cache entries of the captured
folders to the real id, then remove every cache entry still keyed by the
temporary id. -/
def createKBOnSuccess (st : OrchestratorState) (kb : KnowledgeBase)
    (ctx : CreateContext) (now : Nat) : OrchestratorState :=
  let tempId := ctx.optimisticKB.id
  let rootTransferred :=
    match mlookup st.rootCache tempId with
    | some d => mset st.rootCache kb.id d
    | none => st.rootCache
  let folderTransferred := transferFolderCaches tempId kb.id ctx.folderFiles st.folderCache
  { syncState := updateSyncState st.syncState .synced (some kb.id) now
    currentKB := some kb
    rootCache := rootTransferred.filter (fun kv => kv.1 != tempId)
    folderCache := folderTransferred.filter (fun kv => kv.1.1 != tempId)
    queue := updateQueueKBId st.queue tempId kb.id }

/-! ## Concrete inputs used by the per-claim witnesses and
counterexamples. -/

/-- Registry entry used by the C1 witness. -/
def entryC1 : OptimisticDeleteEntry := ⟨"f1", "a.txt", "kb1", 7, true⟩

/-- Data state used by the C1 witness: the file is in the registry and
simultaneously `indexed` in the root cache. -/
def stC1 : DataState :=
  { registry := [("f1", entryC1)]
    rootCache := [("kb1", [⟨"f1", "a.txt", .file, 1, some .indexed⟩])]
    folderCache := [] }

/-! ## Association-list helper lemmas. -/

theorem mlookup_mset_self {α : Type} [DecidableEq α] {β : Type}
    (m : List (α × β)) (k : α) (v : β) : mlookup (mset m k v) k = some v := by
  induction m with
  | nil => simp [mset, mlookup]
  | cons p rest ih =>
    obtain ⟨k', v'⟩ := p
    by_cases h : k = k'
    · simp [mset, h, mlookup]
    · simp [mset, h, mlookup, ih]

theorem mlookup_mset_ne {α : Type} [DecidableEq α] {β : Type}
    (m : List (α × β)) (k k' : α) (v : β) (h : k ≠ k') :
    mlookup (mset m k' v) k = mlookup m k := by
  induction m with
  | nil => simp [mset, mlookup, h]
  | cons p rest ih =>
    obtain ⟨k₀, v₀⟩ := p
    by_cases h₀ : k' = k₀
    · subst h₀
      simp [mset, mlookup, h]
    · by_cases h₁ : k = k₀ <;> simp [mset, h₀, mlookup, h₁, ih]

theorem mem_of_mem_mset {α : Type} [DecidableEq α] {β : Type}
    (m : List (α × β)) (k : α) (v : β) (p : α × β) (hp : p ∈ mset m k v) :
    p ∈ m ∨ p = (k, v) := by
  induction m with
  | nil => simpa [mset] using hp
  | cons q rest ih =>
    obtain ⟨k₀, v₀⟩ := q
    by_cases h : k = k₀
    · subst h
      rcases (by simpa [mset] using hp : p = (k, v) ∨ p ∈ rest) with h | h
      · exact Or.inr h
      · exact Or.inl (List.mem_cons_of_mem _ h)
    · rcases (by simpa [mset, h] using hp : p = (k₀, v₀) ∨ p ∈ mset rest k v) with h₁ | h₁
      · exact Or.inl (by simp [h₁])
      · rcases ih h₁ with h₂ | h₂
        · exact Or.inl (List.mem_cons_of_mem _ h₂)
        · exact Or.inr h₂

theorem mem_of_mlookup_eq_some {α : Type} [DecidableEq α] {β : Type}
    (m : List (α × β)) (k : α) (v : β) (h : mlookup m k = some v) : (k, v) ∈ m := by
  induction m with
  | nil => simp [mlookup] at h
  | cons p rest ih =>
    obtain ⟨k₀, v₀⟩ := p
    by_cases h₀ : k = k₀
    · subst h₀
      simp [mlookup] at h
      simp [h]
    · simp [mlookup, h₀] at h
      exact List.mem_cons_of_mem _ (ih h)

theorem mlookup_filter_fst_ne_self {α : Type} [DecidableEq α] {β : Type}
    (m : List (α × β)) (t : α) :
    mlookup (m.filter (fun kv => kv.1 != t)) t = none := by
  induction m with
  | nil => simp [mlookup]
  | cons p rest ih =>
    obtain ⟨k₀, v₀⟩ := p
    by_cases h : k₀ = t
    · simp [h, List.filter, ih]
    · simp [List.filter_cons, bne_iff_ne, h, mlookup, Ne.symm h, ih]

theorem mlookup_filter_fst_ne {α : Type} [DecidableEq α] {β : Type}
    (m : List (α × β)) (t k : α) (h : k ≠ t) :
    mlookup (m.filter (fun kv => kv.1 != t)) k = mlookup m k := by
  induction m with
  | nil => simp [mlookup]
  | cons p rest ih =>
    obtain ⟨k₀, v₀⟩ := p
    by_cases h₀ : k₀ = t
    · subst h₀
      have hk : k ≠ k₀ := h
      simp [List.filter_cons, mlookup, hk, ih]
    · by_cases h₁ : k = k₀ <;>
        simp [List.filter_cons, bne_iff_ne, h₀, mlookup, h₁, ih]

theorem mlookup_pair_filter_ne_self {β : Type}
    (m : List ((String × String) × β)) (t : String) (p : String) :
    mlookup (m.filter (fun kv => kv.1.1 != t)) (t, p) = none := by
  induction m with
  | nil => simp [mlookup]
  | cons q rest ih =>
    obtain ⟨⟨k₀, p₀⟩, v₀⟩ := q
    by_cases h : k₀ = t
    · simp [h, List.filter, ih]
    · have : (t, p) ≠ (k₀, p₀) := by simp [Ne.symm h]
      simp [List.filter_cons, bne_iff_ne, h, mlookup, this, ih]

theorem mlookup_pair_filter_ne {β : Type}
    (m : List ((String × String) × β)) (t k : String) (p : String) (h : k ≠ t) :
    mlookup (m.filter (fun kv => kv.1.1 != t)) (k, p) = mlookup m (k, p) := by
  induction m with
  | nil => simp [mlookup]
  | cons q rest ih =>
    obtain ⟨⟨k₀, p₀⟩, v₀⟩ := q
    by_cases h₀ : k₀ = t
    · subst h₀
      have hk : (k, p) ≠ (k₀, p₀) := by simp [h]
      simp [List.filter_cons, mlookup, hk, ih]
    · by_cases h₁ : (k, p) = (k₀, p₀) <;>
        simp [List.filter_cons, bne_iff_ne, h₀, mlookup, h₁, ih]

/-! ## Claim C1: registry precedence in the status resolver. -/

/-- C1: whenever a resource id has an entry in the Optimistic Delete
Registry, `resolveFileStatus` returns the "-" sentinel, regardless of the
root status cache, the folder status cache (for any KB id and folder
path), and hence regardless of any cache entry written in the same tick. -/
theorem claimC1 (st : DataState) (fileId : String) (kbId : Option String)
    (folderPath : Option String) (h : (mlookup st.registry fileId).isSome) :
    resolveFileStatus st fileId kbId folderPath = .dash := by
  simp [resolveFileStatus, h]

/-- C1 witness: a state whose registry contains `f1` while the root cache
simultaneously reports it `indexed`; the resolver still yields the dash. -/
theorem claimC1_witness :
    (mlookup stC1.registry "f1").isSome = true
    ∧ mlookup stC1.rootCache "kb1" = some [⟨"f1", "a.txt", .file, 1, some .indexed⟩]
    ∧ resolveFileStatus stC1 "f1" (some "kb1") none = .dash :=
  ⟨by decide, by decide, claimC1 stC1 "f1" (some "kb1") none (by decide)⟩

/-! ## Claim C10: `resetSyncState` keeps the stored kbId. -/

/-- C10: `resetSyncState` (that is, an update to state "idle" with a null
kbId argument) produces a record whose state is idle and whose kbId is
the previously stored kbId unchanged, in both the data-manager
`updateSyncState` and the `useSyncState` `setSyncState`; only the state
and lastUpdated fields change. -/
theorem claimC10 (cur : SyncStateData) (now : Nat) :
    resetSyncState cur now = ⟨.idle, cur.kbId, now⟩
    ∧ setSyncState cur .idle none now = ⟨.idle, cur.kbId, now⟩ :=
  ⟨rfl, rfl⟩

/-! ## Claim C8: rollback of a failed KB create. -/

/-- Context of the aborted create used by the C8 counterexample. -/
def ctxC8 : CreateContext :=
  { optimisticKB := ⟨"temp-1", "KB", "t0", false⟩
    resourceIds := ["f1"]
    previousKB := none
    folderFiles := [] }

/-- Pre-failure state used by the C8 counterexample: sync pending under
the temporary id, one optimistic root cache entry, one delete request
queued under the temporary id. -/
def stC8 : OrchestratorState :=
  { syncState := ⟨.pending, some "temp-1", 3⟩
    currentKB := some ⟨"temp-1", "KB", "t0", false⟩
    rootCache := [("temp-1", [⟨"f1", "a.txt", .file, 1, some .indexed⟩])]
    folderCache := []
    queue := [mkDeleteRequest "f1" "a.txt" "temp-1" 4] }

/-- C8 counterexample: after `createKBMutation.onError` the sync-state
record still carries the temporary KB id in its kbId field, and the
delete request queued under the temporary id is still in the queue — so
the claim that no store retains a trace of the aborted optimistic create
is false at this input. -/
theorem claimC8_counterexample :
    (createKBOnError stC8 ctxC8 9).syncState.kbId = some "temp-1"
    ∧ (createKBOnError stC8 ctxC8 9).queue = [mkDeleteRequest "f1" "a.txt" "temp-1" 4] := by
  constructor <;> rfl

/-- C8 (amended): on failure the orchestrator sets the sync state's state
field to idle but leaves its kbId field unchanged (so a temporary id
stored there survives), restores the previously active KB (or none), and
discards every optimistic entry keyed by the temporary KB id from the
root status cache and from all per-folder status caches; the delete
queue is not touched. -/
theorem claimC8 (st : OrchestratorState) (ctx : CreateContext) (now : Nat) :
    (createKBOnError st ctx now).syncState.state = .idle
    ∧ (createKBOnError st ctx now).syncState.kbId = st.syncState.kbId
    ∧ (createKBOnError st ctx now).currentKB = ctx.previousKB
    ∧ mlookup (createKBOnError st ctx now).rootCache ctx.optimisticKB.id = none
    ∧ (∀ fp, mlookup (createKBOnError st ctx now).folderCache (ctx.optimisticKB.id, fp) = none)
    ∧ (createKBOnError st ctx now).queue = st.queue := by
  refine ⟨rfl, rfl, rfl, ?_, ?_, rfl⟩
  · exact mlookup_filter_fst_ne_self st.rootCache ctx.optimisticKB.id
  · intro fp
    exact mlookup_pair_filter_ne_self st.folderCache ctx.optimisticKB.id fp

/-! ## Claim C9: cache and queue migration on successful KB create. -/

theorem transfer_mlookup_of_ne (t r : String) (ffs : List FolderSeed) :
    ∀ (fc : List ((String × String) × List FileItem)) (q : String × String),
      (∀ f ∈ ffs, q ≠ (r, f.folderPath)) →
      mlookup (transferFolderCaches t r ffs fc) q = mlookup fc q := by
  induction ffs with
  | nil => intro fc q _; rfl
  | cons f rest ih =>
    intro fc q hq
    have hq0 : q ≠ (r, f.folderPath) := hq f (by simp)
    have hqrest : ∀ g ∈ rest, q ≠ (r, g.folderPath) := fun g hg => hq g (by simp [hg])
    cases hfc : mlookup fc (t, f.folderPath) with
    | none => simpa [transferFolderCaches, hfc] using ih fc q hqrest
    | some d0 =>
      have := ih (mset fc (r, f.folderPath) d0) q hqrest
      simpa [transferFolderCaches, hfc, this] using
        mlookup_mset_ne fc q (r, f.folderPath) d0 hq0

theorem transfer_mlookup (t r : String) (hne : r ≠ t) (ffs : List FolderSeed) :
    ∀ (fc : List ((String × String) × List FileItem)) (p : String) (d : List FileItem),
      mlookup fc (t, p) = some d →
      mlookup (transferFolderCaches t r ffs fc) (t, p) = some d
      ∧ (p ∈ ffs.map (fun f => f.folderPath) →
          mlookup (transferFolderCaches t r ffs fc) (r, p) = some d) := by
  induction ffs with
  | nil =>
    intro fc p d h
    exact ⟨h, by simp⟩
  | cons f rest ih =>
    intro fc p d h
    have hpair : (t, p) ≠ (r, f.folderPath) := by
      intro hc
      have h1 : t = r := by simpa using congrArg Prod.fst hc
      exact hne h1.symm
    cases hfc : mlookup fc (t, f.folderPath) with
    | none =>
      have hrec := ih fc p d h
      refine ⟨by simpa [transferFolderCaches, hfc] using hrec.1, ?_⟩
      intro hp
      rcases (by simpa using hp : p = f.folderPath ∨ p ∈ rest.map fun f => f.folderPath) with
        hp1 | hp1
      · subst hp1
        rw [h] at hfc
        exact absurd hfc (by simp)
      · simpa [transferFolderCaches, hfc] using hrec.2 hp1
    | some d0 =>
      have hkeep : mlookup (mset fc (r, f.folderPath) d0) (t, p) = some d := by
        rw [mlookup_mset_ne fc (t, p) (r, f.folderPath) d0 hpair]
        exact h
      have hrec := ih (mset fc (r, f.folderPath) d0) p d hkeep
      refine ⟨by simpa [transferFolderCaches, hfc] using hrec.1, ?_⟩
      intro hp
      by_cases hmem : p ∈ rest.map fun f => f.folderPath
      · simpa [transferFolderCaches, hfc] using hrec.2 hmem
      · rcases (by simpa using hp : p = f.folderPath ∨ p ∈ rest.map fun f => f.folderPath)
          with hp1 | hp1
        · have hd0 : d0 = d := by
            rw [hp1] at h
            rw [h] at hfc
            exact (Option.some_inj.mp hfc).symm
          have hpres := transfer_mlookup_of_ne t r rest
            (mset fc (r, f.folderPath) d0) (r, p)
            (fun g hg => by
              intro hc
              refine hmem ?_
              have h2 : p = g.folderPath := by simpa using congrArg Prod.snd hc
              exact h2 ▸ List.mem_map_of_mem (fun f => f.folderPath) hg)
          rw [transferFolderCaches, hfc]
          rw [hpres, hp1]
          rw [mlookup_mset_self fc (r, f.folderPath) d0]
          rw [hd0]
        · exact absurd hp1 hmem

/-- File used by the C9 concrete states. -/
def fileC9 : FileItem := ⟨"f1", "docs/a.txt", .file, 2, some .indexed⟩

/-- Pre-success state for the C9 counterexample: the folder status cache
holds a temp-keyed entry for a path that is not among the folders
captured in the mutation context (as the prefetcher can seed during an
in-flight create). -/
def stC9 : OrchestratorState :=
  { syncState := ⟨.pending, some "temp-1", 0⟩
    currentKB := some ⟨"temp-1", "KB", "t0", false⟩
    rootCache := []
    folderCache := [(("temp-1", "/other"), [fileC9])]
    queue := [] }

/-- Mutation context for the C9 counterexample: no captured folders. -/
def ctxC9 : CreateContext :=
  { optimisticKB := ⟨"temp-1", "KB", "t0", false⟩
    resourceIds := []
    previousKB := none
    folderFiles := [] }

/-- The real KB returned by the server in the C9 scenarios. -/
def kbC9 : KnowledgeBase := ⟨"kb-9", "KB", "t1", false⟩

/-- C9 counterexample: a folder status cache entry that existed under the
temporary id (at a path outside the folders captured at mutate time) is
removed by `onSuccess` without being copied, so after the successful
create it is retrievable neither under the real id nor under the
temporary id — the claim that every temp-keyed entry is present under
the real id with identical contents is false at this input. -/
theorem claimC9_counterexample :
    mlookup stC9.folderCache ("temp-1", "/other") = some [fileC9]
    ∧ mlookup (createKBOnSuccess stC9 kbC9 ctxC9 7).folderCache ("kb-9", "/other") = none
    ∧ mlookup (createKBOnSuccess stC9 kbC9 ctxC9 7).folderCache ("temp-1", "/other") = none := by
  refine ⟨by decide, by decide, by decide⟩

/-- C9 (amended): after a successful create, no status-cache entry or
queued delete request remains keyed by the temporary id; the temp-keyed
root cache entry and the temp-keyed folder cache entries of the folder
paths captured in the mutation context reappear under the real id with
identical contents, and every queued request that carried the temporary
id reappears with the real id and otherwise identical fields; folder
cache entries under the temporary id at other paths are discarded. -/
theorem claimC9 (st : OrchestratorState) (kb : KnowledgeBase) (ctx : CreateContext)
    (now : Nat) (hne : kb.id ≠ ctx.optimisticKB.id) :
    mlookup (createKBOnSuccess st kb ctx now).rootCache ctx.optimisticKB.id = none
    ∧ (∀ fp, mlookup (createKBOnSuccess st kb ctx now).folderCache
        (ctx.optimisticKB.id, fp) = none)
    ∧ (∀ r ∈ st.queue, r.kbId = ctx.optimisticKB.id →
        { r with kbId := kb.id } ∈ (createKBOnSuccess st kb ctx now).queue)
    ∧ (∀ r ∈ (createKBOnSuccess st kb ctx now).queue, r.kbId ≠ ctx.optimisticKB.id)
    ∧ (∀ d, mlookup st.rootCache ctx.optimisticKB.id = some d →
        mlookup (createKBOnSuccess st kb ctx now).rootCache kb.id = some d)
    ∧ (∀ f ∈ ctx.folderFiles, ∀ d,
        mlookup st.folderCache (ctx.optimisticKB.id, f.folderPath) = some d →
        mlookup (createKBOnSuccess st kb ctx now).folderCache (kb.id, f.folderPath) = some d) := by
  refine ⟨?_, ?_, ?_, ?_, ?_, ?_⟩
  · exact mlookup_filter_fst_ne_self _ _
  · intro fp
    exact mlookup_pair_filter_ne_self _ _ _
  · intro r hr hrk
    show _ ∈ updateQueueKBId st.queue ctx.optimisticKB.id kb.id
    refine List.mem_map.mpr ⟨r, hr, ?_⟩
    simp [hrk]
  · intro r hr
    rcases List.mem_map.mp hr with ⟨r₀, _, hmap⟩
    by_cases h₀ : r₀.kbId = ctx.optimisticKB.id
    · rw [← hmap]
      simp [h₀, hne]
    · rw [← hmap]
      simp [h₀]
  · intro d hd
    show mlookup ((match mlookup st.rootCache ctx.optimisticKB.id with
      | some d0 => mset st.rootCache kb.id d0
      | none => st.rootCache).filter (fun kv => kv.1 != ctx.optimisticKB.id)) kb.id = some d
    rw [hd]
    rw [mlookup_filter_fst_ne _ ctx.optimisticKB.id kb.id hne]
    exact mlookup_mset_self _ _ _
  · intro f hf d hd
    have htr := (transfer_mlookup ctx.optimisticKB.id kb.id hne ctx.folderFiles
      st.folderCache f.folderPath d hd).2
      (List.mem_map_of_mem (fun f => f.folderPath) hf)
    show mlookup ((transferFolderCaches ctx.optimisticKB.id kb.id ctx.folderFiles
      st.folderCache).filter (fun kv => kv.1.1 != ctx.optimisticKB.id)) (kb.id, f.folderPath)
      = some d
    rw [mlookup_pair_filter_ne _ ctx.optimisticKB.id kb.id f.folderPath hne]
    exact htr

/-- Pre-success state for the C9 witness: a temp-keyed root cache entry,
a temp-keyed folder cache entry for the captured folder `/docs`, and a
delete request queued under the temporary id. -/
def stC9w : OrchestratorState :=
  { syncState := ⟨.pending, some "temp-1", 0⟩
    currentKB := some ⟨"temp-1", "KB", "t0", false⟩
    rootCache := [("temp-1", [fileC9])]
    folderCache := [(("temp-1", "/docs"), [fileC9])]
    queue := [mkDeleteRequest "f1" "docs/a.txt" "temp-1" 4] }

/-- Mutation context for the C9 witness: the folder `/docs` was captured. -/
def ctxC9w : CreateContext :=
  { optimisticKB := ⟨"temp-1", "KB", "t0", false⟩
    resourceIds := ["dir1"]
    previousKB := none
    folderFiles := [⟨"dir1", "/docs", ["f1"]⟩] }

/-- C9 witness: the amended migration theorem applied to a concrete
state — caches and queue all reappear under the real id and nothing
remains under the temporary id. -/
theorem claimC9_witness :
    mlookup (createKBOnSuccess stC9w kbC9 ctxC9w 7).rootCache "temp-1" = none
    ∧ mlookup (createKBOnSuccess stC9w kbC9 ctxC9w 7).folderCache ("temp-1", "/docs") = none
    ∧ { mkDeleteRequest "f1" "docs/a.txt" "temp-1" 4 with kbId := "kb-9" }
        ∈ (createKBOnSuccess stC9w kbC9 ctxC9w 7).queue
    ∧ mlookup (createKBOnSuccess stC9w kbC9 ctxC9w 7).rootCache "kb-9" = some [fileC9]
    ∧ mlookup (createKBOnSuccess stC9w kbC9 ctxC9w 7).folderCache ("kb-9", "/docs")
        = some [fileC9] := by
  have h := claimC9 stC9w kbC9 ctxC9w 7 (by decide)
  exact ⟨h.1, h.2.1 "/docs", h.2.2.1 _ (by decide) (by decide),
    h.2.2.2.2.1 [fileC9] (by decide), h.2.2.2.2.2 ⟨"dir1", "/docs", ["f1"]⟩ (by decide)
      [fileC9] (by decide)⟩

/-! ## Claim C2: `pending` cache entries and displayed status. -/

theorem mapped_status_ne_pending (s : Option RStatus) :
    (if s = some RStatus.pending then some RStatus.indexed else s) ≠ some RStatus.pending := by
  by_cases hp : s = some RStatus.pending <;> simp [hp]

theorem rootCacheStep_ne_pending (st : DataState) (fid : String) (kb : Option String)
    (v : Option RStatus) (h : rootCacheStep st fid kb = some v) : v ≠ some .pending := by
  unfold rootCacheStep at h
  repeat' split at h
  all_goals try exact Option.noConfusion h
  all_goals simp only [Option.some_inj] at h
  all_goals subst h
  all_goals simp_all

theorem folderCacheStep_ne_pending (st : DataState) (fid : String) (kb fp : Option String)
    (v : Option RStatus) (h : folderCacheStep st fid kb fp = some v) : v ≠ some .pending := by
  unfold folderCacheStep at h
  repeat' split at h
  all_goals try exact Option.noConfusion h
  all_goals simp only [Option.some_inj] at h
  all_goals subst h
  all_goals simp_all

theorem buildStatusMap_aux_ne_pending (l : List FileItem) :
    ∀ acc : List (String × RStatus), (∀ q ∈ acc, q.2 ≠ RStatus.pending) →
    ∀ q ∈ l.foldl
      (fun m r =>
        let d := r.status.getD .unknown
        mset m r.id (if d = .pending then .indexed else d)) acc,
      q.2 ≠ RStatus.pending := by
  induction l with
  | nil => intro acc hacc q hq; exact hacc q hq
  | cons r rest ih =>
    intro acc hacc q hq
    refine ih _ ?_ q hq
    intro q' hq'
    rcases mem_of_mem_mset acc r.id _ q' hq' with h | h
    · exact hacc q' h
    · subst h
      by_cases hd : r.status.getD .unknown = RStatus.pending <;> simp [hd]

/-- The file used in the C2 concrete scenarios: server-reported status
`pending`, sitting inside the folder `folder`. -/
def filePendingC2 : FileItem := ⟨"f1", "folder/a.txt", .file, 3, some .pending⟩

/-- The expanded directory of the C2 scenario. -/
def dirC2 : FileItem := ⟨"dir1", "folder", .directory, 0, none⟩

/-- Drive-files cache for the C2 scenario: the folder listing holds the
raw `pending` status, as written by `updateCachedFilesWithStatus`. -/
def driveCacheC2 : List (String × List FileItem) := [("dir1", [filePendingC2])]

/-- Data state for the C2 counterexample: the folder status cache holds a
`pending` entry for the file; the registry is empty. -/
def dataStateC2 : DataState :=
  { registry := []
    rootCache := []
    folderCache := [(("kb1", "/folder"), [filePendingC2])] }

/-- The flattened tree of the C2 scenario, with `dir1` expanded. -/
def flatRowsC2 : List TreeNode :=
  flattenForest (buildFileTree ["dir1"] [] driveCacheC2 [] 4 [dirC2] 0 "")

/-- C2 counterexample: the file's folder status cache entry is `pending`,
yet the row rendered for it as a child of the expanded folder in the
flattened tree shows the "Indexing..." (pending) badge, not the indexed
badge — children take the raw drive-cache status, so the claim that a
pending cache entry is always displayed as `indexed` is false here. -/
theorem claimC2_counterexample :
    mlookup dataStateC2.folderCache ("kb1", "/folder") = some [filePendingC2]
    ∧ filePendingC2.status = some .pending
    ∧ flatRowsC2.map (nodeCell (fun _ => false)) = [.dash, .cellIndexing]
    ∧ Cell.cellIndexing ≠ Cell.cellIndexed := by
  refine ⟨by decide, by decide, by decide, by decide⟩

/-- C2 (amended): a `pending` status-cache entry is never displayed as
`pending` through the Status Resolver or through the root status map:
the resolver never returns `pending`, the root status map never stores
`pending`, and a root- or folder-cache hit whose raw status is `pending`
resolves to `indexed` when no registry entry overrides it.  The
guarantee does not extend to rows rendered for children of an expanded
folder, which take the raw drive-cache status. -/
theorem claimC2 :
    (∀ st fid kb fp, resolveFileStatus st fid kb fp ≠ .found (some .pending))
    ∧ (∀ resources i v, mlookup (buildStatusMap resources) i = some v → v ≠ .pending)
    ∧ (∀ st fid k fp files r,
        mlookup st.registry fid = none → k ≠ "" →
        mlookup st.rootCache k = some files →
        files.find? (fun x => x.id == fid) = some r →
        r.status = some .pending →
        resolveFileStatus st fid (some k) fp = .found (some .indexed))
    ∧ (∀ st fid k fp files r,
        mlookup st.registry fid = none → k ≠ "" → fp ≠ "" →
        rootCacheStep st fid (some k) = none →
        mlookup st.folderCache (k, fp) = some files →
        files.find? (fun x => x.id == fid) = some r →
        r.status = some .pending →
        resolveFileStatus st fid (some k) (some fp) = .found (some .indexed)) := by
  refine ⟨?_, ?_, ?_, ?_⟩
  · intro st fid kb fp
    unfold resolveFileStatus
    by_cases hr : (mlookup st.registry fid).isSome
    · simp [hr]
    · simp only [hr, if_false]
      cases h2 : rootCacheStep st fid kb with
      | some v =>
        have hv := rootCacheStep_ne_pending st fid kb v h2
        simp [hv]
      | none =>
        cases h3 : folderCacheStep st fid kb fp with
        | some v =>
          have hv := folderCacheStep_ne_pending st fid kb fp v h3
          simp [hv]
        | none => simp
  · intro resources i v hv
    have := buildStatusMap_aux_ne_pending resources [] (by simp) (i, v)
      (mem_of_mlookup_eq_some _ i v hv)
    exact this
  · intro st fid k fp files r hreg hk hroot hfind hp
    have hstep : rootCacheStep st fid (some k) = some (some .indexed) := by
      unfold rootCacheStep
      simp [hk, hroot, hfind, hp]
    unfold resolveFileStatus
    simp [hreg, hstep]
  · intro st fid k fp files r hreg hk hfp hroot hfolder hfind hp
    have hstep : folderCacheStep st fid (some k) (some fp) = some (some .indexed) := by
      unfold folderCacheStep
      simp [hk, hfp, hfolder, hfind, hp]
    unfold resolveFileStatus
    simp [hreg, hroot, hstep]

/-- Data state for the C2 witness: `pending` entries in the root cache
and in a folder cache, no registry entry. -/
def stC2w : DataState :=
  { registry := []
    rootCache := [("kb1", [filePendingC2])]
    folderCache := [(("kb1", "/folder"), [filePendingC2])] }

/-- C2 witness: the amended theorem applied concretely — a pending root
cache entry and a pending folder cache entry both resolve to `indexed`. -/
theorem claimC2_witness :
    resolveFileStatus stC2w "f1" (some "kb1") none = .found (some .indexed)
    ∧ resolveFileStatus dataStateC2 "f1" (some "kb1") (some "/folder")
        = .found (some .indexed) :=
  ⟨claimC2.2.2.1 stC2w "f1" "kb1" none [filePendingC2] filePendingC2
      (by decide) (by decide) (by decide) (by decide) (by decide),
    claimC2.2.2.2 dataStateC2 "f1" "kb1" "/folder" [filePendingC2] filePendingC2
      (by decide) (by decide) (by decide) (by decide) (by decide) (by decide) (by decide)⟩

/-! ## Claims C6 and C7: poll settlement and the duration ceiling. -/

theorem no_transient_iff (resources : List FileItem) :
    ((resources.filter (fun i => i.type == FileType.file)).filter
        (fun f => f.status == some RStatus.pending) = []
      ∧ (resources.filter (fun i => i.type == FileType.file)).filter
        (fun f => f.status == some RStatus.pending_delete) = [])
    ↔ ∀ f ∈ resources, f.type = .file →
        f.status ≠ some .pending ∧ f.status ≠ some .pending_delete := by
  constructor
  · rintro ⟨h1, h2⟩ f hf hty
    have hmem : f ∈ resources.filter (fun i => i.type == FileType.file) := by
      simp [List.mem_filter, hf, hty]
    refine ⟨?_, ?_⟩
    · intro hs
      have := List.filter_eq_nil_iff.mp h1 f hmem
      simp [hs] at this
    · intro hs
      have := List.filter_eq_nil_iff.mp h2 f hmem
      simp [hs] at this
  · intro h
    constructor
    · refine List.filter_eq_nil_iff.mpr ?_
      intro f hmem
      rcases List.mem_filter.mp hmem with ⟨hf, hty⟩
      have := (h f hf (by simpa using hty)).1
      simpa using this
    · refine List.filter_eq_nil_iff.mpr ?_
      intro f hmem
      rcases List.mem_filter.mp hmem with ⟨hf, hty⟩
      have := (h f hf (by simpa using hty)).2
      simpa using this

/-- The pending file of the C6 counterexample. -/
def filePendC6 : FileItem := ⟨"f1", "a.txt", .file, 1, some .pending⟩

/-- C6 counterexample: with one file still `pending` and elapsed time
just past the two-minute ceiling, the root polling effect stops —
although not every file-type resource has status in {indexed, error} —
so "polling stops exactly when every file-type resource is indexed or
error" is false at this input. -/
theorem claimC6_counterexample :
    ¬ (rootPollStep 120001 (some [filePendC6]) = false ↔
        ∀ f ∈ [filePendC6], f.type = .file →
          (f.status = some .indexed ∨ f.status = some .rerror)) := by
  decide

/-- C6 (amended): once a poll result is in hand, root polling stops
exactly when the two-minute ceiling has elapsed or no file-type resource
has a transient status (`pending` or `pending_delete`) — a status
outside the transient pair (including a missing or unknown status)
counts as settled; an empty root listing settles immediately; a folder
scope stops rescheduling exactly when no reported status value is
transient. -/
theorem claimC6 :
    (∀ elapsed resources,
      rootPollStep elapsed (some resources) = false ↔
        (MAX_POLL_DURATION < elapsed
          ∨ ∀ f ∈ resources, f.type = .file →
              f.status ≠ some .pending ∧ f.status ≠ some .pending_delete))
    ∧ (∀ elapsed, rootPollStep elapsed (some []) = false)
    ∧ (∀ resources,
        pollFolderStep resources = false ↔
          ∀ s ∈ folderStatusValues resources, s ≠ .pending ∧ s ≠ .pending_delete) := by
  refine ⟨?_, ?_, ?_⟩
  · intro elapsed resources
    constructor
    · intro hstop
      by_cases ht : MAX_POLL_DURATION < elapsed
      · exact Or.inl ht
      · right
        unfold rootPollStep at hstop
        simp only [ht, if_false] at hstop
        by_cases hres : resources = []
        · subst hres
          intro f hf
          simp at hf
        · simp only [hres, if_false] at hstop
          by_cases hfl : resources.filter (fun i => i.type == FileType.file) = []
          · intro f hf hty
            have := List.filter_eq_nil_iff.mp hfl f hf
            simp [hty] at this
          · simp only [hfl, if_false] at hstop
            simp at hstop
            intro f hf hty
            exact ⟨fun hs => absurd hty (hstop.1 f hf hs),
              fun hs => absurd hty (hstop.2 f hf hs)⟩
    · intro h
      rcases h with ht | hall
      · unfold rootPollStep
        simp [ht]
      · unfold rootPollStep
        by_cases ht : MAX_POLL_DURATION < elapsed
        · simp [ht]
        · by_cases hres : resources = []
          · simp [ht, hres]
          · have hA := (no_transient_iff resources).mpr hall
            by_cases hfl : resources.filter (fun i => i.type == FileType.file) = []
            · simp [ht, hres, hfl]
            · simp [ht, hres, hfl, hA.1, hA.2]
  · intro elapsed
    unfold rootPollStep
    by_cases ht : MAX_POLL_DURATION < elapsed <;> simp [ht]
  · intro resources
    unfold pollFolderStep
    constructor
    · intro h
      simp only [Bool.or_eq_false_iff, decide_eq_false_iff_not, not_not] at h
      intro s hs
      refine ⟨?_, ?_⟩
      · intro hp
        have := List.filter_eq_nil_iff.mp h.1 s hs
        simp [hp] at this
      · intro hp
        have := List.filter_eq_nil_iff.mp h.2 s hs
        simp [hp] at this
    · intro h
      have h1 : (folderStatusValues resources).filter (fun s => s == RStatus.pending) = [] :=
        List.filter_eq_nil_iff.mpr (fun s hs => by simpa using (h s hs).1)
      have h2 : (folderStatusValues resources).filter
          (fun s => s == RStatus.pending_delete) = [] :=
        List.filter_eq_nil_iff.mpr (fun s hs => by simpa using (h s hs).2)
      simp [h1, h2]

/-- C6 witness: the amended settlement theorem applied concretely — an
empty root listing settles, and a listing whose only file is `indexed`
settles. -/
theorem claimC6_witness :
    rootPollStep 50 (some []) = false
    ∧ rootPollStep 50 (some [⟨"f1", "a.txt", .file, 1, some .indexed⟩]) = false :=
  ⟨claimC6.2.1 50,
    (claimC6.1 50 [⟨"f1", "a.txt", .file, 1, some .indexed⟩]).mpr (Or.inr (by decide))⟩

/-- The pending file of the C7 scenarios. -/
def filePendC7 : FileItem := ⟨"f2", "b.txt", .file, 1, some .pending⟩

/-- C7 counterexample: a folder scope that keeps observing a `pending`
file is still scheduling polls at round 130, whose elapsed time
(130 poll intervals) is beyond the two-minute ceiling — folder polling
has no duration ceiling, so the claim is false for folder scopes. -/
theorem claimC7_counterexample :
    ¬ (MAX_POLL_DURATION < 130 * POLL_INTERVAL →
        folderPollActive (fun _ => [filePendC7]) 130 = false) := by
  decide

/-- C7 (amended): the two-minute ceiling governs only the root polling
scope — once a poll result is in hand and the ceiling has elapsed the
root effect stops polling — while a folder polling scope keeps
rescheduling as long as every observed listing still has a transient
status, with no duration bound. -/
theorem claimC7 :
    (∀ elapsed data, MAX_POLL_DURATION < elapsed →
      rootPollStep elapsed (some data) = false)
    ∧ (∀ results n, (∀ m, m < n → pollFolderStep (results m) = true) →
        folderPollActive results n = true) := by
  constructor
  · intro elapsed data ht
    unfold rootPollStep
    simp [ht]
  · intro results n
    induction n with
    | zero => intro _; rfl
    | succ n ih =>
      intro h
      have h1 := ih (fun m hm => h m (Nat.lt_succ_of_lt hm))
      have h2 := h n (Nat.lt_succ_self n)
      simp [folderPollActive, h1, h2]

/-- C7 witness: the amended theorem applied concretely — the root scope
stops right past the ceiling, and a folder scope observing pending
listings is still active after three rounds. -/
theorem claimC7_witness :
    rootPollStep 120001 (some [filePendC7]) = false
    ∧ folderPollActive (fun _ => [filePendC7]) 3 = true := by
  have hstep : pollFolderStep [filePendC7] = true := by decide
  exact ⟨claimC7.1 120001 [filePendC7] (by decide),
    claimC7.2 (fun _ => [filePendC7]) 3 (fun m hm => hstep)⟩

/-! ## Claims C4 and C5: delete-queue drains. -/

theorem dq_drainLoop_calls (k : String) (api : DeleteRequest → Bool) :
    ∀ snap store : List DeleteRequest,
      (UseDeleteQueue.drainLoop k api snap store).calls
        = (snap.filter (fun r => decide (r.kbId = k))).map
            (fun r => (r.kbId, r.resourcePath)) := by
  intro snap
  induction snap with
  | nil => intro store; rfl
  | cons r rest ih =>
    intro store
    by_cases hk : r.kbId = k
    · by_cases ha : api r = true
      · simp [UseDeleteQueue.drainLoop, hk, ha, List.filter_cons, ih]
      · have ha' : api r = false := by simpa using ha
        simp [UseDeleteQueue.drainLoop, hk, ha', List.filter_cons, ih]
    · simp [UseDeleteQueue.drainLoop, hk, List.filter_cons, ih]

theorem dq_drainLoop_store_mem (k : String) (api : DeleteRequest → Bool) :
    ∀ (snap store : List DeleteRequest) (r : DeleteRequest), r ∈ store →
      (∀ x ∈ snap, x.kbId = k → api x = true → x.id ≠ r.id) →
      r ∈ (UseDeleteQueue.drainLoop k api snap store).store := by
  intro snap
  induction snap with
  | nil => intro store r hr _; exact hr
  | cons x rest ih =>
    intro store r hr hx
    by_cases hk : x.kbId = k
    · by_cases ha : api x = true
      · have hid : x.id ≠ r.id := hx x (by simp) hk ha
        have hr' : r ∈ removeFromQueue store x.id := by
          simp only [removeFromQueue, List.mem_filter, bne_iff_ne]
          exact ⟨hr, Ne.symm hid⟩
        have hrec := ih (removeFromQueue store x.id) r hr'
          (fun y hy => hx y (by simp [hy]))
        simpa [UseDeleteQueue.drainLoop, hk, ha] using hrec
      · have ha' : api x = false := by simpa using ha
        have hrec := ih store r hr (fun y hy => hx y (by simp [hy]))
        simpa [UseDeleteQueue.drainLoop, hk, ha'] using hrec
    · have hrec := ih store r hr (fun y hy => hx y (by simp [hy]))
      simpa [UseDeleteQueue.drainLoop, hk] using hrec

theorem dq_drainLoop_toast (k : String) (api : DeleteRequest → Bool) :
    ∀ (snap store : List DeleteRequest) (r : DeleteRequest), r ∈ snap →
      r.kbId = k → api r = false →
      Toast.itemError r.fileId ∈ (UseDeleteQueue.drainLoop k api snap store).toasts := by
  intro snap
  induction snap with
  | nil => intro store r hr; simp at hr
  | cons x rest ih =>
    intro store r hr hrk ha
    rcases List.mem_cons.mp hr with hx | hx
    · subst hx
      simp [UseDeleteQueue.drainLoop, hrk, ha]
    · by_cases hk : x.kbId = k
      · by_cases hax : api x = true
        · simpa [UseDeleteQueue.drainLoop, hk, hax] using
            ih (removeFromQueue store x.id) r hx hrk ha
        · have hax' : api x = false := by simpa using hax
          have := ih store r hx hrk ha
          simp [UseDeleteQueue.drainLoop, hk, hax']
          exact Or.inr this
      · simpa [UseDeleteQueue.drainLoop, hk] using ih store r hx hrk ha

theorem dm_drainLoop_store_sub (api : DeleteRequest → Bool) :
    ∀ (snap store : List DeleteRequest) (x : DeleteRequest),
      x ∈ (DataManagerOps.drainLoop api snap store).store →
      x ∈ store ∧ ∀ rs ∈ snap, rs.id ≠ x.id := by
  intro snap
  induction snap with
  | nil => intro store x hx; exact ⟨hx, by simp⟩
  | cons r rest ih =>
    intro store x hx
    have hx' : x ∈ (DataManagerOps.drainLoop api rest (removeFromQueue store r.id)).store := by
      by_cases ha : api r = true
      · simpa [DataManagerOps.drainLoop, ha] using hx
      · have ha' : api r = false := by simpa using ha
        simpa [DataManagerOps.drainLoop, ha'] using hx
    obtain ⟨hmem, hids⟩ := ih (removeFromQueue store r.id) x hx'
    have hmem' := List.mem_filter.mp
      (show x ∈ store.filter (fun req => req.id != r.id) from hmem)
    refine ⟨hmem'.1, ?_⟩
    intro rs hrs
    rcases List.mem_cons.mp hrs with hr | hr
    · subst hr
      exact Ne.symm (bne_iff_ne.mp hmem'.2)
    · exact hids rs hr

theorem dm_drainLoop_toasts (api : DeleteRequest → Bool) :
    ∀ snap store : List DeleteRequest,
      (DataManagerOps.drainLoop api snap store).toasts = [] := by
  intro snap
  induction snap with
  | nil => intro store; rfl
  | cons r rest ih =>
    intro store
    by_cases ha : api r = true
    · simp [DataManagerOps.drainLoop, ha, ih]
    · have ha' : api r = false := by simpa using ha
      simp [DataManagerOps.drainLoop, ha', ih]

/-- Request used by the C4 counterexample. -/
def reqC4 : DeleteRequest := mkDeleteRequest "f1" "a.txt" "kb-1" 5

/-- C4 counterexample: in the `useDeleteQueue` drain, a request whose
delete call fails surfaces its per-item error toast but is NOT dequeued —
after the drain completes it still sits in the queue, so the claim that
a failed request no longer remains in the queue is false at this input. -/
theorem claimC4_counterexample :
    (UseDeleteQueue.processQueue (some "kb-1") false [reqC4] (fun _ => false)).finalQueue
      = [reqC4]
    ∧ Toast.itemError "f1"
        ∈ (UseDeleteQueue.processQueue (some "kb-1") false [reqC4] (fun _ => false)).toasts := by
  exact ⟨by decide, by decide⟩

/-- C4 (amended): a failed delete is never retried within a drain, but
the two drains split the claimed behavior: in the `useDeleteQueue` drain
a failed request surfaces a per-item error notification and remains in
the queue (only successes dequeue), while in the data-manager drain of
`useKnowledgeBaseOperations` a failed request is dequeued anyway — the
queue is empty after the drain — but no per-item error notification is
surfaced (only the blanket summary toast). -/
theorem dq_processQueue_run (k : String) (queue : List DeleteRequest)
    (api : DeleteRequest → Bool) (hk : k ≠ "") (hne : queue ≠ []) :
    UseDeleteQueue.processQueue (some k) false queue api
      = ⟨(UseDeleteQueue.drainLoop k api queue queue).store,
         (UseDeleteQueue.drainLoop k api queue queue).calls,
         (UseDeleteQueue.drainLoop k api queue queue).toasts
           ++ (if 0 < (UseDeleteQueue.drainLoop k api queue queue).succ
               then [Toast.successSummary (UseDeleteQueue.drainLoop k api queue queue).succ
                      (UseDeleteQueue.drainLoop k api queue queue).failed]
               else [])⟩ := by
  have hne' : queue.isEmpty = false := by
    cases queue with
    | nil => exact absurd rfl hne
    | cons a l => rfl
  simp [UseDeleteQueue.processQueue, hk, hne']

theorem dm_processQueue_run (k : String) (queue : List DeleteRequest)
    (api : DeleteRequest → Bool) (hk : k ≠ "") (hne : queue ≠ []) :
    DataManagerOps.processQueue (some k) false queue api
      = ⟨(DataManagerOps.drainLoop api queue queue).store,
         (DataManagerOps.drainLoop api queue queue).calls,
         (DataManagerOps.drainLoop api queue queue).toasts ++ [Toast.processedSummary]⟩ := by
  have hne' : queue.isEmpty = false := by
    cases queue with
    | nil => exact absurd rfl hne
    | cons a l => rfl
  simp [DataManagerOps.processQueue, hk, hne']

/-- C4 (amended): a failed delete is never retried within a drain, but
the two drains split the claimed behavior: in the `useDeleteQueue` drain
a failed request surfaces a per-item error notification and remains in
the queue (only successes dequeue), while in the data-manager drain of
`useKnowledgeBaseOperations` a failed request is dequeued anyway — the
queue is empty after the drain — but no per-item error notification is
surfaced (only the blanket summary toast). -/
theorem claimC4 (k : String) (queue : List DeleteRequest) (api : DeleteRequest → Bool)
    (r : DeleteRequest) (hk : k ≠ "") :
    ((queue.map (fun x => x.id)).Nodup → r ∈ queue → r.kbId = k → api r = false →
      r ∈ (UseDeleteQueue.processQueue (some k) false queue api).finalQueue
      ∧ Toast.itemError r.fileId
          ∈ (UseDeleteQueue.processQueue (some k) false queue api).toasts)
    ∧ (r ∈ queue →
      (DataManagerOps.processQueue (some k) false queue api).finalQueue = []
      ∧ ∀ t ∈ (DataManagerOps.processQueue (some k) false queue api).toasts,
          t = Toast.processedSummary) := by
  constructor
  · intro hnodup hr hrk ha
    have hne : queue ≠ [] := by
      intro h
      subst h
      simp at hr
    have hinj := List.inj_on_of_nodup_map hnodup
    have hcond : ∀ x ∈ queue, x.kbId = k → api x = true → x.id ≠ r.id := by
      intro x hx hxk hxa hid
      have hxr : x = r := hinj hx hr hid
      subst hxr
      rw [hxa] at ha
      simp at ha
    rw [dq_processQueue_run k queue api hk hne]
    constructor
    · exact dq_drainLoop_store_mem k api queue queue r hr hcond
    · exact List.mem_append_left _ (dq_drainLoop_toast k api queue queue r hr hrk ha)
  · intro hr
    have hne : queue ≠ [] := by
      intro h
      subst h
      simp at hr
    rw [dm_processQueue_run k queue api hk hne]
    constructor
    · refine List.eq_nil_iff_forall_not_mem.mpr ?_
      intro x hx
      obtain ⟨hmem, hids⟩ := dm_drainLoop_store_sub api queue queue x hx
      exact hids x hmem rfl
    · rw [dm_drainLoop_toasts]
      intro t ht
      simpa using ht

/-- Request used by the C4 witness. -/
def reqC4w : DeleteRequest := mkDeleteRequest "f9" "w.txt" "kb-1" 6

/-- C4 witness: the amended drain theorem applied concretely — the
failed request stays in the `useDeleteQueue` drain's queue with its
per-item toast, and the data-manager drain empties the queue. -/
theorem claimC4_witness :
    reqC4w ∈ (UseDeleteQueue.processQueue (some "kb-1") false [reqC4w]
        (fun _ => false)).finalQueue
    ∧ Toast.itemError "f9" ∈ (UseDeleteQueue.processQueue (some "kb-1") false [reqC4w]
        (fun _ => false)).toasts
    ∧ (DataManagerOps.processQueue (some "kb-1") false [reqC4w]
        (fun _ => false)).finalQueue = [] := by
  have h := claimC4 "kb-1" [reqC4w] (fun _ => false) reqC4w (by decide)
  have h1 := h.1 (by decide) (by decide) (by decide) rfl
  exact ⟨h1.1, h1.2, (h.2 (by decide)).1⟩

/-- Matching request of the C5 witness. -/
def reqC5a : DeleteRequest := mkDeleteRequest "f1" "a.txt" "kb-1" 1

/-- Mismatched request of the C5 witness (stale KB id). -/
def reqC5b : DeleteRequest := mkDeleteRequest "f2" "b.txt" "kb-2" 2

/-- C5: the `useDeleteQueue` drain issues delete calls exactly for the
requests whose kbId matches the KB id passed in, in queue (FIFO enqueue)
order; every issued call targets that KB id; a mismatched request is
skipped — it is never called and remains in the queue after the drain —
and `queueDeleteRequest` appends at the tail, so queue order is enqueue
order. -/
theorem claimC5 (k : String) (queue : List DeleteRequest) (api : DeleteRequest → Bool)
    (hk : k ≠ "") :
    (UseDeleteQueue.processQueue (some k) false queue api).calls
      = (queue.filter (fun r => decide (r.kbId = k))).map (fun r => (r.kbId, r.resourcePath))
    ∧ (∀ c ∈ (UseDeleteQueue.processQueue (some k) false queue api).calls, c.1 = k)
    ∧ ((queue.map (fun x => x.id)).Nodup →
        ∀ r ∈ queue, r.kbId ≠ k →
          r ∈ (UseDeleteQueue.processQueue (some k) false queue api).finalQueue)
    ∧ (∀ (q0 : List DeleteRequest) (fid fname kbid : String) (now : Nat),
        queueDeleteRequest q0 fid fname kbid now = q0 ++ [mkDeleteRequest fid fname kbid now]) := by
  by_cases hq : queue = []
  · subst hq
    refine ⟨by simp [UseDeleteQueue.processQueue], ?_, ?_, fun q0 fid fname kbid now => rfl⟩
    · intro c hc
      simp [UseDeleteQueue.processQueue] at hc
    · intro _ r hr
      simp at hr
  · have hcalls : (UseDeleteQueue.processQueue (some k) false queue api).calls
        = (queue.filter (fun r => decide (r.kbId = k))).map
            (fun r => (r.kbId, r.resourcePath)) := by
      rw [dq_processQueue_run k queue api hk hq]
      exact dq_drainLoop_calls k api queue queue
    refine ⟨hcalls, ?_, ?_, fun q0 fid fname kbid now => rfl⟩
    · intro c hc
      rw [hcalls] at hc
      rcases List.mem_map.mp hc with ⟨r, hrmem, hrc⟩
      have hrk : r.kbId = k := by
        have := (List.mem_filter.mp hrmem).2
        simpa using this
      rw [← hrc]
      exact hrk
    · intro hnodup r hr hrk
      have hinj := List.inj_on_of_nodup_map hnodup
      have hcond : ∀ x ∈ queue, x.kbId = k → api x = true → x.id ≠ r.id := by
        intro x hx hxk _ hid
        have hxr : x = r := hinj hx hr hid
        subst hxr
        exact hrk hxk
      rw [dq_processQueue_run k queue api hk hq]
      exact dq_drainLoop_store_mem k api queue queue r hr hcond

/-- C5 witness: the drain theorem applied concretely — with one matching
and one stale-KB request, exactly one call is issued (for the matching
request, at its path) and the stale request remains queued. -/
theorem claimC5_witness :
    (UseDeleteQueue.processQueue (some "kb-1") false [reqC5a, reqC5b]
        (fun _ => true)).calls = [("kb-1", "/a.txt")]
    ∧ reqC5b ∈ (UseDeleteQueue.processQueue (some "kb-1") false [reqC5a, reqC5b]
        (fun _ => true)).finalQueue := by
  have h := claimC5 "kb-1" [reqC5a, reqC5b] (fun _ => true) (by decide)
  refine ⟨?_, h.2.2.1 (by decide) reqC5b (by decide) (by decide)⟩
  rw [h.1]
  decide

/-! ## Claim C3: selection deduplication. -/

/-- The claim's wording: the file path is exactly one path segment below
the directory path — the directory path, a slash, then one segment with
no further slash. -/
def OneSegmentBelow (dirPath filePath : String) : Prop :=
  ∃ seg : List Char, '/' ∉ seg ∧ filePath.data = dirPath.data ++ '/' :: seg

/-- The claim's removal predicate: the selected id resolves to a
file-type resource whose path is exactly one segment below the path of
some selected directory. -/
def RemovedSpec (selectedIds : List String) (files : List FileItem) (i : String) : Prop :=
  ∃ file, mlookup (fileMapOf files) i = some file ∧ file.type = .file
    ∧ ∃ folder ∈ selectedFoldersOf selectedIds files, OneSegmentBelow folder.name file.name

theorem decide_not_eq_true (b : Bool) : (decide ¬(b = true)) = !b := by
  cases b <;> simp

theorem directChildCheck_iff (dirPath filePath : String) :
    directChildCheck dirPath filePath = true ↔ OneSegmentBelow dirPath filePath := by
  have hslash : ("/" : String).data = ['/'] := rfl
  constructor
  · intro h
    by_cases hpre : jsStartsWith filePath (dirPath ++ "/") = true
    · have hp : (dirPath ++ "/").data <+: filePath.data := by
        have h2 := hpre
        unfold jsStartsWith at h2
        simpa using h2
      obtain ⟨t, ht⟩ := hp
      have hlen : ((dirPath ++ "/").data).length = dirPath.data.length + 1 := by
        simp [String.data_append, hslash]
      have hdrop : filePath.data.drop (dirPath.data.length + 1) = t := by
        rw [← ht]
        exact List.drop_left' hlen
      have hni : ¬ ((filePath.data.drop (dirPath.data.length + 1)).contains '/' = true) := by
        unfold directChildCheck at h
        rw [if_neg (by simpa using hpre)] at h
        unfold jsIncludesSlash jsSubstringFrom jsLength at h
        simpa using of_decide_eq_true h
      refine ⟨t, ?_, ?_⟩
      · intro hmem
        rw [hdrop] at hni
        exact hni (List.contains_iff_exists_mem_beq.mpr ⟨'/', hmem, by simp⟩)
      · rw [← ht]
        simp [String.data_append, hslash]
    · unfold directChildCheck at h
      rw [if_pos (by simpa using hpre)] at h
      exact absurd h (by simp)
  · rintro ⟨seg, hseg, heq⟩
    have hassoc : dirPath.data ++ '/' :: seg = (dirPath.data ++ ['/']) ++ seg := by simp
    have hpre : jsStartsWith filePath (dirPath ++ "/") = true := by
      unfold jsStartsWith
      rw [heq, hassoc]
      simp [String.data_append, hslash]
    unfold directChildCheck
    rw [if_neg (by simpa using hpre)]
    unfold jsIncludesSlash jsSubstringFrom jsLength
    have hdrop : filePath.data.drop (dirPath.data.length + 1) = seg := by
      rw [heq, hassoc]
      exact List.drop_left' (by simp)
    simp only [hdrop]
    refine decide_eq_true ?_
    intro hc
    exact hseg (by simpa using hc)

theorem isDirectChild_iff (selectedIds : List String) (files : List FileItem) (i : String) :
    ((match mlookup (fileMapOf files) i with
      | none => false
      | some file =>
        if file.type = .directory then false
        else (selectedFoldersOf selectedIds files).any fun folder =>
          directChildCheck folder.name file.name) = true)
    ↔ RemovedSpec selectedIds files i := by
  unfold RemovedSpec
  cases h : mlookup (fileMapOf files) i with
  | none => simp
  | some file =>
    by_cases hty : file.type = .directory
    · constructor
      · intro hfalse
        simp [hty] at hfalse
      · rintro ⟨f, hf, hft, _⟩
        have hfe : f = file := by simpa using hf.symm
        rw [hfe, hty] at hft
        exact absurd hft (by simp)
    · have hty' : file.type = .file := by
        cases h2 : file.type with
        | file => rfl
        | directory => exact absurd h2 hty
      simp only [hty, if_false, List.any_eq_true, directChildCheck_iff]
      constructor
      · rintro ⟨folder, hfm, hone⟩
        exact ⟨file, rfl, hty', folder, hfm, hone⟩
      · rintro ⟨f, hf, _, folder, hfm, hone⟩
        have hfe : f = file := by simpa using hf.symm
        subst hfe
        exact ⟨folder, hfm, hone⟩

/-- C3: with a selection of at most one id, `deduplicateResourceIds`
returns the selection unchanged; with more than one id it removes
exactly the selected ids that resolve to a file whose path is exactly
one segment below a selected directory's path — so every selected
directory is kept, and every selected file nested two or more segments
below any selected directory is kept. -/
theorem claimC3 (selectedIds : List String) (files : List FileItem) :
    (selectedIds.length ≤ 1 → deduplicateResourceIds selectedIds files = selectedIds)
    ∧ (1 < selectedIds.length →
        deduplicateResourceIds selectedIds files = selectedIds.filter fun i =>
          !(match mlookup (fileMapOf files) i with
            | none => false
            | some file =>
              if file.type = .directory then false
              else (selectedFoldersOf selectedIds files).any fun folder =>
                directChildCheck folder.name file.name))
    ∧ (∀ i, ((match mlookup (fileMapOf files) i with
        | none => false
        | some file =>
          if file.type = .directory then false
          else (selectedFoldersOf selectedIds files).any fun folder =>
            directChildCheck folder.name file.name) = true)
        ↔ RemovedSpec selectedIds files i) := by
  refine ⟨?_, ?_, fun i => isDirectChild_iff selectedIds files i⟩
  · intro h
    unfold deduplicateResourceIds
    rw [if_pos h]
  · intro h
    unfold deduplicateResourceIds
    rw [if_neg (by omega)]
    by_cases hsf : selectedFoldersOf selectedIds files = []
    · rw [if_pos hsf]
      refine (List.filter_eq_self.mpr ?_).symm
      intro i _
      cases hmi : mlookup (fileMapOf files) i with
      | none => simp [hmi]
      | some file =>
        by_cases hty : file.type = .directory <;> simp [hmi, hty, hsf]
    · rw [if_neg hsf]
      refine List.filter_congr ?_
      intro i _
      cases hmi : mlookup (fileMapOf files) i with
      | none => simp [hmi]
      | some file =>
        by_cases hty : file.type = .directory
        · simp [hmi, hty]
        · cases hany : (selectedFoldersOf selectedIds files).any
              (fun folder => directChildCheck folder.name file.name) with
          | false => simp [hmi, hty, hany]
          | true => simp [hmi, hty, hany]

/-- Files of the C3 witness: the directory `docs`, a direct child file,
and a file nested two segments below. -/
def filesC3 : List FileItem :=
  [⟨"d1", "docs", .directory, 0, none⟩,
   ⟨"f1", "docs/report.pdf", .file, 1, none⟩,
   ⟨"f2", "docs/sub/report.pdf", .file, 1, none⟩]

/-- C3 witness: the dedup theorem applied concretely — the direct child
is dropped and the directory kept; the deeper-nested file is kept; a
one-element selection is unchanged; and the dropped id satisfies the
claim's removal predicate. -/
theorem claimC3_witness :
    deduplicateResourceIds ["d1", "f1"] filesC3 = ["d1"]
    ∧ deduplicateResourceIds ["d1", "f2"] filesC3 = ["d1", "f2"]
    ∧ deduplicateResourceIds ["f1"] filesC3 = ["f1"]
    ∧ RemovedSpec ["d1", "f1"] filesC3 "f1" := by
  have h1 := (claimC3 ["d1", "f1"] filesC3).2.1 (by decide)
  have h2 := (claimC3 ["d1", "f2"] filesC3).2.1 (by decide)
  have h3 := (claimC3 ["f1"] filesC3).1 (by decide)
  refine ⟨?_, ?_, h3, ?_⟩
  · rw [h1]
    decide
  · rw [h2]
    decide
  · exact ((claimC3 ["d1", "f1"] filesC3).2.2 "f1").mp (by decide)
